import Mathlib

set_option maxRecDepth 16000
set_option maxHeartbeats 1000000

/-!
Shallow embedding of gnupg `g10/build-packet.c` (the OpenPGP packet
serializer) and proofs about it.

Modelling conventions:
* The byte sink (`IOBUF` in the C code) is modelled as `Iobuf`: the list of
  bytes successfully written so far, an oracle list of failure flags (one
  flag is consumed per sink operation; an exhausted oracle means the
  operation succeeds), and the last block-mode framing value set on the
  sink.  A failing operation consumes its flag and writes nothing.
* Temporary staging buffers (`iobuf_temp`) are `Iobuf`s with an empty
  failure oracle, so staging writes always succeed, as in the C code.
* Machine integers are `Nat`; a store into a byte truncates with `% 256`
  (the C cast to `byte` / the `& 0xff` masks), `u32` arithmetic reduces
  `% U32`.  `x >> k` is `x >>> k`.  Where the C code reassembles a value
  from two bytes of a buffer with `(b0 << 8) | b1`, the operands are bytes
  read from memory (always < 256), so the or is written as
  `b0 * 256 + b1`.
* `log_bug` (a process abort on a violated internal invariant) is
  modelled by returning `none`; all other paths return `some`.
* Multi-precision integers are out of scope in the source (`mpi_write` is
  an external collaborator with a self-delimiting wire format), so `MPI`
  is an opaque byte list that `mpi_write` copies to the sink.
-/

namespace BuildPacket

def U32 : Nat := 4294967296

/-- Error codes returned by the encoders (from errors.h, values opaque). -/
inductive Rc where
  | ok
  | writeFile
  | pubkeyAlgo
deriving DecidableEq

/-- Byte sink model: bytes written, per-operation failure oracle, and the
last block-mode framing value installed with iobuf_set_block_mode. -/
structure Iobuf where
  written : List Nat
  fails : List Bool
  blockMode : Option Nat
deriving DecidableEq

def iobuf_put (out : Iobuf) (b : Nat) : Iobuf × Bool :=
  match out.fails with
  | [] => (⟨out.written ++ [b % 256], [], out.blockMode⟩, false)
  | f :: rest =>
    if f then (⟨out.written, rest, out.blockMode⟩, true)
    else (⟨out.written ++ [b % 256], rest, out.blockMode⟩, false)

def iobuf_write (out : Iobuf) (l : List Nat) : Iobuf × Bool :=
  match out.fails with
  | [] => (⟨out.written ++ l.map (fun b => b % 256), [], out.blockMode⟩, false)
  | f :: rest =>
    if f then (⟨out.written, rest, out.blockMode⟩, true)
    else (⟨out.written ++ l.map (fun b => b % 256), rest, out.blockMode⟩, false)

def iobuf_set_block_mode (out : Iobuf) (n : Nat) : Iobuf :=
  ⟨out.written, out.fails, some n⟩

def iobuf_temp : Iobuf := ⟨[], [], none⟩

def iobuf_get_temp_length (a : Iobuf) : Nat := a.written.length

def iobuf_write_temp (out : Iobuf) (a : Iobuf) : Iobuf × Bool :=
  iobuf_write out a.written

/-- Opaque wire form of a multi-precision integer (external collaborator). -/
abbrev MPI : Type := List Nat

def mpi_write (a : Iobuf) (m : MPI) : Iobuf := (iobuf_write a m).1

/-- write_16: big-endian 16-bit write; the first put's result is discarded,
only the final put's result decides the return value (as in the C code). -/
def write_16 (out : Iobuf) (a0 : Nat) : Iobuf × Bool :=
  let a := a0 % 65536
  let o1 := (iobuf_put out (a >>> 8)).1
  iobuf_put o1 a

/-- write_32: big-endian 32-bit write; only the final put is checked. -/
def write_32 (out : Iobuf) (a0 : Nat) : Iobuf × Bool :=
  let a := a0 % U32
  let o1 := (iobuf_put out (a >>> 24)).1
  let o2 := (iobuf_put o1 (a >>> 16)).1
  let o3 := (iobuf_put o2 (a >>> 8)).1
  iobuf_put o3 a

/-- write_version: writes the constant format-version byte 3. -/
def write_version (out : Iobuf) (_ctb : Nat) : Iobuf × Bool :=
  iobuf_put out 3

/-- calc_header_length: number of header bytes (ctb plus length bytes)
for an old-format header of the given length. -/
def calc_header_length (len : Nat) : Nat :=
  if len = 0 then 1
  else if len < 256 then 2
  else if len < 65536 then 3
  else 5

/-- write_new_header: new-format packet header.  A forced header width or
a zero length is a log_bug (`none`). -/
def write_new_header (out : Iobuf) (ctb len0 hdrlen : Nat) :
    Option (Iobuf × Bool) :=
  let len := len0 % U32
  if hdrlen ≠ 0 then none
  else
    let (o1, f1) := iobuf_put out ctb
    if f1 then some (o1, true)
    else if len = 0 then none
    else if len < 192 then
      some (iobuf_put o1 len)
    else if len < 8384 then
      let l := len - 192
      let (o2, f2) := iobuf_put o1 (l / 256 + 192)
      if f2 then some (o2, true)
      else some (iobuf_put o2 (l % 256))
    else
      let (o2, f2) := iobuf_put o1 255
      if f2 then some (o2, true) else
      let (o3, f3) := iobuf_put o2 ((len >>> 24) % 256)
      if f3 then some (o3, true) else
      let (o4, f4) := iobuf_put o3 ((len >>> 16) % 256)
      if f4 then some (o4, true) else
      let (o5, f5) := iobuf_put o4 ((len >>> 8) % 256)
      if f5 then some (o5, true) else
      some (iobuf_put o5 (len % 256))

/-- write_header2: write the CTB and packet length.  For an old-format ctb
the 2-bit length-type selector is merged into the ctb; `hdrlen` (when
nonzero) forces the selector choice from the requested width, falling
back to the 4-byte selector when the width cannot hold `len`. -/
def write_header2 (out : Iobuf) (ctb len0 hdrlen : Nat) (blkmode : Bool) :
    Option (Iobuf × Bool) :=
  let len := len0 % U32
  if ctb &&& 64 ≠ 0 then write_new_header out ctb len hdrlen
  else
    let ctb1 :=
      if hdrlen ≠ 0 then
        if len = 0 then ctb ||| 3
        else if hdrlen = 2 ∧ len < 256 then ctb
        else if hdrlen = 3 ∧ len < 65536 then ctb ||| 1
        else ctb ||| 2
      else
        if len = 0 then ctb ||| 3
        else if len < 256 then ctb
        else if len < 65536 then ctb ||| 1
        else ctb ||| 2
    let (o1, f1) := iobuf_put out ctb1
    if f1 then some (o1, true)
    else if len = 0 then
      some (if blkmode then iobuf_set_block_mode o1 8196 else o1, false)
    else
      let o2 :=
        if ctb1 &&& 2 ≠ 0 then
          (iobuf_put (iobuf_put o1 (len >>> 24)).1 (len >>> 16)).1
        else o1
      let o3 := if ctb1 &&& 3 ≠ 0 then (iobuf_put o2 (len >>> 8)).1 else o2
      some (iobuf_put o3 len)

def write_header (out : Iobuf) (ctb len : Nat) : Option (Iobuf × Bool) :=
  write_header2 out ctb len 0 true

/-- Old-format tag byte, as computed by build_packet for pkttype <= 15. -/
def oldTagByte (t : Nat) : Nat := 128 ||| ((t &&& 15) <<< 2)

/-- New-format tag byte, as computed by build_packet for pkttype > 15. -/
def newTagByte (t : Nat) : Nat := 192 ||| (t &&& 63)

/-! Signature subpackets. -/

/-- Result of find_subpkt.  The C function returns a pointer into the
region on a match (with the header byte count and the body byte count),
NULL for "end of packets, not found", and NULL after the log_error
"buffer shorter than subpacket" for a decode that runs past the region
bound (a reported parse error distinct from not-found). -/
inductive FindResult where
  | found (hlen : Nat) (n : Nat) (body : List Nat)
  | notFound
  | parseError
deriving DecidableEq

/-- Epilogue of one find_subpkt loop iteration: `n` is the decoded entry
length, `hlen` the header byte count reported on a match, `bl` the
remaining declared region length at the point where the C reads the type
byte, `buffer` the bytes from that point on (for the 2-byte scaled form
the C never advances past the second length byte, so that byte doubles
as the type byte).  Returns `none` when the scan must continue past this
entry. -/
def fsCheck (reqtype n hlen bl : Nat) (buffer : List Nat) :
    Option FindResult :=
  if bl < n then some .parseError
  else
    match buffer with
    | [] => some .parseError
    | t :: rest =>
      if t % 128 = reqtype then
        if n = 0 then some .parseError
        else if n - 1 > bl then some .parseError
        else some (.found hlen (n - 1) (rest.take (n - 1)))
      else none

/-- The find_subpkt scan loop.  `buflen` is the declared region length
still to scan, `buffer` the remaining bytes.  An entry length byte of 255
is followed by a 4-byte big-endian length (the C advances past those four
bytes); one in 192..254 begins a 2-byte scaled length, but the C does not
advance `buffer` past the second length byte, so the type byte is read
from the second length byte itself, a matching entry reports hlen 2 with
the body starting right after that byte, and a non-matching scan advances
n bytes from there; otherwise the byte itself is the length. -/
def fsLoop (reqtype buflen : Nat) (buffer : List Nat) : FindResult :=
  if h : buflen = 0 then .notFound
  else
    match buffer with
    | [] => .parseError
    | nb :: rest =>
      if nb = 255 then
        if buflen - 1 < 4 then .parseError
        else
          match rest with
          | a :: b :: c :: d :: rest2 =>
            let n := ((a * 256 + b) * 256 + c) * 256 + d
            match fsCheck reqtype n 6 (buflen - 5) rest2 with
            | some r => r
            | none => fsLoop reqtype (buflen - 5 - n) (rest2.drop n)
          | _ => .parseError
      else if 192 ≤ nb then
        if buflen - 1 < 2 then .parseError
        else
          match rest with
          | b :: rest2 =>
            let n := ((nb - 192) <<< 8) + b + 192
            match fsCheck reqtype n 2 (buflen - 2) (b :: rest2) with
            | some r => r
            | none => fsLoop reqtype (buflen - 2 - n) ((b :: rest2).drop n)
          | [] => .parseError
      else
        match fsCheck reqtype nb 2 (buflen - 1) rest with
        | some r => r
        | none => fsLoop reqtype (buflen - 1 - nb) (rest.drop nb)
termination_by buflen
decreasing_by all_goals omega

/-- find_subpkt: NULL region means plain not-found; otherwise read the
2-byte big-endian total-length... and scan the entries. -/
def find_subpkt (buffer : Option (List Nat)) (reqtype : Nat) : FindResult :=
  match buffer with
  | none => .notFound
  | some (b0 :: b1 :: rest) => fsLoop reqtype (b0 * 256 + b1) rest
  | some _ => .parseError

/-- The 2-byte big-endian length read from the front of a non-empty
subpacket region (0 for an absent region), as read by build_sig_subpkt
and do_signature. -/
def regionLen (region : Option (List Nat)) : Nat :=
  match region with
  | none => 0
  | some (b0 :: b1 :: _) => b0 * 256 + b1
  | some _ => 0

/-- Modelled from the spec: the signature-subpacket type ids live in
packet.h, which is not under src/; values follow the OpenPGP registry the
spec refers to.  Creation time and the private add-sig type route to the
hashed region, everything else to the unhashed region (spec section 4.4). -/
def SIGSUBPKT_SIG_CREATED : Nat := 2

/-- Modelled from the spec: see SIGSUBPKT_SIG_CREATED. -/
def SIGSUBPKT_PRIV_ADD_SIG : Nat := 101

/-- Modelled from the spec: see SIGSUBPKT_SIG_CREATED. -/
def SIGSUBPKT_ISSUER : Nat := 16

structure PktSignature where
  version : Nat
  sigCls : Nat
  timestamp : Nat
  keyid0 : Nat
  keyid1 : Nat
  pubkey_algo : Nat
  digest_algo : Nat
  digest_start0 : Nat
  digest_start1 : Nat
  hashed_data : Option (List Nat)
  unhashed_data : Option (List Nat)
  elg_a : MPI
  elg_b : MPI
  dsa_r : MPI
  dsa_s : MPI
  rsa_integer : MPI

/-- build_sig_subpkt: append a subpacket of TYPE to the routed region of
SIG.  An existing entry of that type (update) and a body needing the
long-form entry length are log_bugs.  The resulting region bytes follow
the C stores exactly: the realloc keeps the old bytes, then
data[n0+0..n0+1] receive the new total, data[n0+2] the entry length byte,
data[n0+3] the type, and the body is copied behind them. -/
def build_sig_subpkt (sig : PktSignature) (type : Nat) (buffer : List Nat) :
    Option PktSignature :=
  let foundH := match find_subpkt sig.hashed_data type with
                | .found _ _ _ => true
                | _ => false
  let foundU := match find_subpkt sig.unhashed_data type with
                | .found _ _ _ => true
                | _ => false
  if foundH || foundU then none
  else if 192 ≤ buffer.length + 1 then none
  else
    let hashed := type = SIGSUBPKT_SIG_CREATED ∨ type = SIGSUBPKT_PRIV_ADD_SIG
    if hashed then
      let old := sig.hashed_data.getD []
      let n0 := regionLen sig.hashed_data
      let n := n0 + 1 + 1 + buffer.length
      let data := old.take n0 ++
        [(n >>> 8) % 256, n % 256, (buffer.length + 1) % 256, type % 256] ++
        buffer
      some { sig with hashed_data := some data }
    else
      let old := sig.unhashed_data.getD []
      let n0 := regionLen sig.unhashed_data
      let n := n0 + 1 + 1 + buffer.length
      let data := old.take n0 ++
        [(n >>> 8) % 256, n % 256, (buffer.length + 1) % 256, type % 256] ++
        buffer
      some { sig with unhashed_data := some data }

/-! Per-packet-type encoders. -/

/-- Modelled from the spec: the public-key algorithm ids live in cipher.h,
which is not under src/; the predicates follow the OpenPGP ids for the
RSA family, DSA and the Elgamal family named in spec section 3. -/
def PUBKEY_ALGO_DSA : Nat := 17

/-- Modelled from the spec: see PUBKEY_ALGO_DSA. -/
def is_ELGAMAL (a : Nat) : Bool := a == 16 || a == 20

/-- Modelled from the spec: see PUBKEY_ALGO_DSA. -/
def is_RSA (a : Nat) : Bool := a == 1 || a == 2 || a == 3

/-- Shared encoder epilogue: write the length header for the staged
buffer (the header write's own result is discarded, as in the C code),
then copy the staged buffer to the real sink. -/
def emit_staged (out : Iobuf) (ctb hdrlen : Nat) (a : Iobuf) :
    Option (Iobuf × Rc) :=
  match write_header2 out ctb (iobuf_get_temp_length a) hdrlen true with
  | none => none
  | some (o1, _) =>
    let (o2, f) := iobuf_write_temp o1 a
    some (o2, if f then Rc.writeFile else Rc.ok)

structure PktUserId where
  len : Nat
  name : List Nat

def do_user_id (out : Iobuf) (ctb : Nat) (uid : PktUserId) :
    Option (Iobuf × Rc) :=
  match write_header out ctb uid.len with
  | none => none
  | some (o1, _) =>
    let (o2, f) := iobuf_write o1 (uid.name.take uid.len)
    some (o2, if f then Rc.writeFile else Rc.ok)

structure PktComment where
  len : Nat
  data : List Nat

/-- do_comment: gated by the no_comment configuration flag (threaded in
explicitly instead of the global opt). -/
def do_comment (no_comment : Bool) (out : Iobuf) (ctb : Nat)
    (rem : PktComment) : Option (Iobuf × Rc) :=
  if no_comment then some (out, Rc.ok)
  else
    match write_header out ctb rem.len with
    | none => none
    | some (o1, _) =>
      let (o2, f) := iobuf_write o1 (rem.data.take rem.len)
      some (o2, if f then Rc.writeFile else Rc.ok)

/-- Public-cert payload; the C union over the algorithm families is
flattened into one field set. -/
structure PktPublicCert where
  version : Nat
  timestamp : Nat
  valid_days : Nat
  hdrbytes : Nat
  pubkey_algo : Nat
  elg_p : MPI
  elg_g : MPI
  elg_y : MPI
  dsa_p : MPI
  dsa_q : MPI
  dsa_g : MPI
  dsa_y : MPI
  rsa_n : MPI
  rsa_e : MPI

def do_public_cert (out : Iobuf) (ctb : Nat) (pkc : PktPublicCert) :
    Option (Iobuf × Rc) :=
  let a := iobuf_temp
  let a := (iobuf_put a (if pkc.version = 0 then 3 else pkc.version)).1
  let a := (write_32 a pkc.timestamp).1
  let a := if pkc.version < 4 then (write_16 a pkc.valid_days).1 else a
  let a := (iobuf_put a pkc.pubkey_algo).1
  if is_ELGAMAL pkc.pubkey_algo then
    let a := mpi_write a pkc.elg_p
    let a := mpi_write a pkc.elg_g
    let a := mpi_write a pkc.elg_y
    emit_staged out ctb pkc.hdrbytes a
  else if pkc.pubkey_algo = PUBKEY_ALGO_DSA then
    let a := mpi_write a pkc.dsa_p
    let a := mpi_write a pkc.dsa_q
    let a := mpi_write a pkc.dsa_g
    let a := mpi_write a pkc.dsa_y
    emit_staged out ctb pkc.hdrbytes a
  else if is_RSA pkc.pubkey_algo then
    let a := mpi_write a pkc.rsa_n
    let a := mpi_write a pkc.rsa_e
    emit_staged out ctb pkc.hdrbytes a
  else some (out, Rc.pubkeyAlgo)

/-- Secret-cert payload; union flattened as for PktPublicCert. -/
structure PktSecretCert where
  version : Nat
  timestamp : Nat
  valid_days : Nat
  hdrbytes : Nat
  pubkey_algo : Nat
  is_protected : Bool
  protect_algo : Nat
  s2k_mode : Nat
  s2k_hash : Nat
  s2k_salt : List Nat
  s2k_count : Nat
  protect_iv : List Nat
  csum : Nat
  elg_p : MPI
  elg_g : MPI
  elg_y : MPI
  elg_x : MPI
  dsa_p : MPI
  dsa_q : MPI
  dsa_g : MPI
  dsa_y : MPI
  dsa_x : MPI
  rsa_n : MPI
  rsa_e : MPI
  rsa_d : MPI
  rsa_p : MPI
  rsa_q : MPI
  rsa_u : MPI

/-- The Elgamal/DSA protection descriptor staging of do_secret_cert
(marker 0xff, cipher algo, s2k mode and hash, conditional salt and count,
iv), or the single zero byte when unprotected. -/
def skcProtect (a : Iobuf) (skc : PktSecretCert) : Iobuf :=
  if skc.is_protected then
    let a := (iobuf_put a 255).1
    let a := (iobuf_put a skc.protect_algo).1
    let a := (iobuf_put a skc.s2k_mode).1
    let a := (iobuf_put a skc.s2k_hash).1
    let a := if skc.s2k_mode = 1 ∨ skc.s2k_mode = 4 then
               (iobuf_write a (skc.s2k_salt.take 8)).1
             else a
    let a := if skc.s2k_mode = 4 then (write_32 a skc.s2k_count).1 else a
    (iobuf_write a (skc.protect_iv.take 8)).1
  else (iobuf_put a 0).1

def do_secret_cert (out : Iobuf) (ctb : Nat) (skc : PktSecretCert) :
    Option (Iobuf × Rc) :=
  let a := iobuf_temp
  let a := (iobuf_put a (if skc.version = 0 then 3 else skc.version)).1
  let a := (write_32 a skc.timestamp).1
  let a := if skc.version < 4 then (write_16 a skc.valid_days).1 else a
  let a := (iobuf_put a skc.pubkey_algo).1
  if is_ELGAMAL skc.pubkey_algo then
    let a := mpi_write a skc.elg_p
    let a := mpi_write a skc.elg_g
    let a := mpi_write a skc.elg_y
    let a := skcProtect a skc
    let a := mpi_write a skc.elg_x
    let a := (write_16 a skc.csum).1
    emit_staged out ctb skc.hdrbytes a
  else if skc.pubkey_algo = PUBKEY_ALGO_DSA then
    let a := mpi_write a skc.dsa_p
    let a := mpi_write a skc.dsa_q
    let a := mpi_write a skc.dsa_g
    let a := mpi_write a skc.dsa_y
    let a := skcProtect a skc
    let a := mpi_write a skc.dsa_x
    let a := (write_16 a skc.csum).1
    emit_staged out ctb skc.hdrbytes a
  else if is_RSA skc.pubkey_algo then
    let a := mpi_write a skc.rsa_n
    let a := mpi_write a skc.rsa_e
    let a := if skc.is_protected then
               let a := (iobuf_put a skc.protect_algo).1
               (iobuf_write a (skc.protect_iv.take 8)).1
             else (iobuf_put a 0).1
    let a := mpi_write a skc.rsa_d
    let a := mpi_write a skc.rsa_p
    let a := mpi_write a skc.rsa_q
    let a := mpi_write a skc.rsa_u
    let a := (write_16 a skc.csum).1
    emit_staged out ctb skc.hdrbytes a
  else some (out, Rc.pubkeyAlgo)

structure PktSymkeyEnc where
  version : Nat
  cipher_algo : Nat
  s2k_mode : Nat
  s2k_hash : Nat
  s2k_salt : List Nat
  s2k_count : Nat
  seskeylen : Nat
  seskey : List Nat

def do_symkey_enc (out : Iobuf) (ctb : Nat) (enc : PktSymkeyEnc) :
    Option (Iobuf × Rc) :=
  if enc.version ≠ 4 then none
  else if ¬(enc.s2k_mode = 0 ∨ enc.s2k_mode = 1 ∨ enc.s2k_mode = 4) then none
  else
    let a := iobuf_temp
    let a := (iobuf_put a enc.version).1
    let a := (iobuf_put a enc.cipher_algo).1
    let a := (iobuf_put a enc.s2k_mode).1
    let a := (iobuf_put a enc.s2k_hash).1
    let a := if enc.s2k_mode = 1 ∨ enc.s2k_mode = 4 then
               let a := (iobuf_write a (enc.s2k_salt.take 8)).1
               if enc.s2k_mode = 4 then (write_32 a enc.s2k_count).1 else a
             else a
    let a := if enc.seskeylen ≠ 0 then
               (iobuf_write a (enc.seskey.take enc.seskeylen)).1
             else a
    emit_staged out ctb 0 a

structure PktPubkeyEnc where
  keyid0 : Nat
  keyid1 : Nat
  pubkey_algo : Nat
  elg_a : MPI
  elg_b : MPI
  rsa_integer : MPI

def do_pubkey_enc (out : Iobuf) (ctb : Nat) (enc : PktPubkeyEnc) :
    Option (Iobuf × Rc) :=
  let a := iobuf_temp
  let a := (write_version a ctb).1
  let a := (write_32 a enc.keyid0).1
  let a := (write_32 a enc.keyid1).1
  let a := (iobuf_put a enc.pubkey_algo).1
  if is_ELGAMAL enc.pubkey_algo then
    let a := mpi_write a enc.elg_a
    let a := mpi_write a enc.elg_b
    emit_staged out ctb 0 a
  else if is_RSA enc.pubkey_algo then
    let a := mpi_write a enc.rsa_integer
    emit_staged out ctb 0 a
  else some (out, Rc.pubkeyAlgo)

structure PktPlaintext where
  mode : Nat
  namelen : Nat
  name : List Nat
  timestamp : Nat
  len : Nat
  buf : List Nat

def calc_plaintext (pt : PktPlaintext) : Nat :=
  if pt.len ≠ 0 then (1 + 1 + pt.namelen + 4 + pt.len) % U32 else 0

/-- The do_plaintext streaming loop: pull chunks of up to 1000 bytes from
the body source and write them through, counting the bytes streamed in a
u32, until the source is exhausted or a write fails. -/
def plaintextLoop (out : Iobuf) (src : List Nat) (n : Nat) :
    Iobuf × Nat × Bool :=
  match src with
  | [] => (out, n, false)
  | x :: xs =>
    let chunk := (x :: xs).take 1000
    let (o1, f) := iobuf_write out chunk
    if f then (o1, n, true)
    else plaintextLoop o1 ((x :: xs).drop 1000) ((n + chunk.length) % U32)
termination_by src.length
decreasing_by simp; omega

/-- Result of do_plaintext: the sink, the return code, and whether the
non-fatal length-mismatch diagnostic (log_error) was raised. -/
structure PtResult where
  out : Iobuf
  rc : Rc
  mismatch : Bool
deriving DecidableEq

def do_plaintext (out : Iobuf) (ctb : Nat) (pt : PktPlaintext) :
    Option PtResult :=
  match write_header out ctb (calc_plaintext pt) with
  | none => none
  | some (o1, _) =>
    let o2 := (iobuf_put o1 pt.mode).1
    let o3 := (iobuf_put o2 pt.namelen).1
    let o4 := ((List.range pt.namelen).map (fun i => pt.name.getD i 0)).foldl
                (fun o b => (iobuf_put o b).1) o3
    let (o5, ferr) := write_32 o4 pt.timestamp
    let rc0 := if ferr then Rc.writeFile else Rc.ok
    let r := plaintextLoop o5 pt.buf 0
    let rc1 := if r.2.2 then Rc.writeFile else rc0
    if pt.len = 0 then some ⟨iobuf_set_block_mode r.1 0, rc1, false⟩
    else if r.2.1 ≠ pt.len then some ⟨r.1, rc1, true⟩
    else some ⟨r.1, rc1, false⟩

structure PktEncrypted where
  len : Nat

def do_encrypted (out : Iobuf) (ctb : Nat) (ed : PktEncrypted) :
    Option (Iobuf × Rc) :=
  let n := if ed.len ≠ 0 then (ed.len + 10) % U32 else 0
  match write_header out ctb n with
  | none => none
  | some (o1, _) => some (o1, Rc.ok)

structure PktCompressed where
  algorithm : Nat

def do_compressed (out : Iobuf) (ctb : Nat) (cd : PktCompressed) :
    Option (Iobuf × Rc) :=
  match write_header2 out ctb 0 0 false with
  | none => none
  | some (o1, _) => some ((iobuf_put o1 cd.algorithm).1, Rc.ok)

def do_signature (out : Iobuf) (ctb : Nat) (sig : PktSignature) :
    Option (Iobuf × Rc) :=
  let a := iobuf_temp
  let a := (iobuf_put a (if sig.version = 0 then 3 else sig.version)).1
  let a := if sig.version < 4 then (iobuf_put a 5).1 else a
  let a := (iobuf_put a sig.sigCls).1
  let a := if sig.version < 4 then
             let a := (write_32 a sig.timestamp).1
             let a := (write_32 a sig.keyid0).1
             (write_32 a sig.keyid1).1
           else a
  let a := (iobuf_put a sig.pubkey_algo).1
  let a := (iobuf_put a sig.digest_algo).1
  let a := if 4 ≤ sig.version then
             let n := regionLen sig.hashed_data
             let a := (write_16 a n).1
             let a := if n ≠ 0 then
                        (iobuf_write a
                          (((sig.hashed_data.getD []).drop 2).take n)).1
                      else a
             let n2 := regionLen sig.unhashed_data
             let a := (write_16 a n2).1
             if n2 ≠ 0 then
               (iobuf_write a
                 (((sig.unhashed_data.getD []).drop 2).take n2)).1
             else a
           else a
  let a := (iobuf_put a sig.digest_start0).1
  let a := (iobuf_put a sig.digest_start1).1
  if is_ELGAMAL sig.pubkey_algo then
    let a := mpi_write a sig.elg_a
    let a := mpi_write a sig.elg_b
    emit_staged out ctb 0 a
  else if sig.pubkey_algo = PUBKEY_ALGO_DSA then
    let a := mpi_write a sig.dsa_r
    let a := mpi_write a sig.dsa_s
    emit_staged out ctb 0 a
  else if is_RSA sig.pubkey_algo then
    let a := mpi_write a sig.rsa_integer
    emit_staged out ctb 0 a
  else some (out, Rc.pubkeyAlgo)

structure PktOnepassSig where
  sigCls : Nat
  digest_algo : Nat
  pubkey_algo : Nat
  keyid0 : Nat
  keyid1 : Nat
  last : Nat

def do_onepass_sig (out : Iobuf) (ctb : Nat) (ops : PktOnepassSig) :
    Option (Iobuf × Rc) :=
  let a := iobuf_temp
  let a := (write_version a ctb).1
  let a := (iobuf_put a ops.sigCls).1
  let a := (iobuf_put a ops.digest_algo).1
  let a := (iobuf_put a ops.pubkey_algo).1
  let a := (write_32 a ops.keyid0).1
  let a := (write_32 a ops.keyid1).1
  let a := (iobuf_put a ops.last).1
  emit_staged out ctb 0 a

/-! Dispatcher and length precomputation. -/

/-- The tagged packet union.  The pkttype values (packet.h, not under
src/) follow the OpenPGP tags the spec refers to; only the plaintext tag
(11, an old-format tag) is load-bearing for the theorems below. -/
inductive Packet where
  | pubkeyEnc (enc : PktPubkeyEnc)
  | signature (sig : PktSignature)
  | symkeyEnc (enc : PktSymkeyEnc)
  | onepassSig (ops : PktOnepassSig)
  | secretCert (skc : PktSecretCert)
  | publicCert (pkc : PktPublicCert)
  | seckeySubcert (skc : PktSecretCert)
  | compressed (cd : PktCompressed)
  | encrypted (ed : PktEncrypted)
  | plaintext (pt : PktPlaintext)
  | ringTrust
  | userId (uid : PktUserId)
  | pubkeySubcert (pkc : PktPublicCert)
  | oldComment (rem : PktComment)
  | comment (rem : PktComment)

/-- Modelled from the spec: numeric pkttype of each variant (packet.h is
not under src/); OpenPGP tag numbers, with the modern comment type in the
private range. -/
def pkttypeOf : Packet → Nat
  | .pubkeyEnc _ => 1
  | .signature _ => 2
  | .symkeyEnc _ => 3
  | .onepassSig _ => 4
  | .secretCert _ => 5
  | .publicCert _ => 6
  | .seckeySubcert _ => 7
  | .compressed _ => 8
  | .encrypted _ => 9
  | .plaintext _ => 11
  | .ringTrust => 12
  | .userId _ => 13
  | .pubkeySubcert _ => 14
  | .oldComment _ => 16
  | .comment _ => 61

/-- The tag byte build_packet computes for a pkttype: new format for
pkttype > 15, old format otherwise. -/
def ctbFor (t : Nat) : Nat := if 15 < t then newTagByte t else oldTagByte t

/-- build_packet: normalize the legacy comment tag (its arm uses the
modern comment pkttype for the tag byte, as the C code rewrites pkttype
before computing the ctb), compute the tag byte, dispatch to the
per-type encoder.  The trust packet (and any other type without an
encoder) is a log_bug. -/
def build_packet (no_comment : Bool) (out : Iobuf) :
    Packet → Option (Iobuf × Rc)
  | .userId uid => do_user_id out (ctbFor (pkttypeOf (.userId uid))) uid
  | .comment r => do_comment no_comment out (ctbFor (pkttypeOf (.comment r))) r
  | .oldComment r =>
    do_comment no_comment out (ctbFor (pkttypeOf (.comment r))) r
  | .publicCert pkc =>
    do_public_cert out (ctbFor (pkttypeOf (.publicCert pkc))) pkc
  | .pubkeySubcert pkc =>
    do_public_cert out (ctbFor (pkttypeOf (.pubkeySubcert pkc))) pkc
  | .secretCert skc =>
    do_secret_cert out (ctbFor (pkttypeOf (.secretCert skc))) skc
  | .seckeySubcert skc =>
    do_secret_cert out (ctbFor (pkttypeOf (.seckeySubcert skc))) skc
  | .symkeyEnc enc =>
    do_symkey_enc out (ctbFor (pkttypeOf (.symkeyEnc enc))) enc
  | .pubkeyEnc enc =>
    do_pubkey_enc out (ctbFor (pkttypeOf (.pubkeyEnc enc))) enc
  | .plaintext pt =>
    (do_plaintext out (ctbFor (pkttypeOf (.plaintext pt))) pt).map
      (fun r => (r.out, r.rc))
  | .encrypted ed => do_encrypted out (ctbFor (pkttypeOf (.encrypted ed))) ed
  | .compressed cd =>
    do_compressed out (ctbFor (pkttypeOf (.compressed cd))) cd
  | .signature sig =>
    do_signature out (ctbFor (pkttypeOf (.signature sig))) sig
  | .onepassSig ops =>
    do_onepass_sig out (ctbFor (pkttypeOf (.onepassSig ops))) ops
  | .ringTrust => none

/-- calc_packet_length: only the plaintext case is implemented; every
other packet type is a log_bug. -/
def calc_packet_length (pkt : Packet) : Option Nat :=
  match pkt with
  | .plaintext pt =>
    let n := calc_plaintext pt
    some ((n + calc_header_length n) % U32)
  | _ => none

/-- Big-endian value of a byte list (used to state that emitted length
bytes decode back to the length). -/
def beNat (l : List Nat) : Nat := l.foldl (fun acc b => acc * 256 + b) 0

/-! Helper lemmas about the sink model. -/

theorem iobuf_put_clean (w : List Nat) (bm : Option Nat) (b : Nat) :
    iobuf_put ⟨w, [], bm⟩ b = (⟨w ++ [b % 256], [], bm⟩, false) := rfl

theorem iobuf_write_clean (w : List Nat) (bm : Option Nat) (l : List Nat) :
    iobuf_write ⟨w, [], bm⟩ l =
      (⟨w ++ l.map (fun b => b % 256), [], bm⟩, false) := rfl

theorem iobuf_put_fails (out : Iobuf) (b : Nat) :
    (iobuf_put out b).1.fails = out.fails.tail := by
  rcases out with ⟨w, fs, bm⟩
  rcases fs with _ | ⟨f, rest⟩
  · rfl
  · cases f <;> simp [iobuf_put]

theorem iobuf_put_snd (out : Iobuf) (b : Nat) :
    (iobuf_put out b).2 = out.fails.headD false := by
  rcases out with ⟨w, fs, bm⟩
  rcases fs with _ | ⟨f, rest⟩
  · rfl
  · cases f <;> simp [iobuf_put]

/-! Claim theorems. -/

/-- C1: for every length len > 0 handed to the new-format header writer,
the emitted length encoding is a single byte equal to len when len < 192;
the two-byte scaled form with first byte (len-192)/256 + 192 when
192 <= len < 8384; and the 5-byte form (marker 0xFF followed by the
4-byte big-endian value of len, which decodes back to len) when
len >= 8384. -/
theorem c1_new_header_length_encoding (ctb len : Nat) (w : List Nat)
    (bm : Option Nat) (h1 : 0 < len) (h2 : len < U32) :
    (len < 192 →
      write_new_header ⟨w, [], bm⟩ ctb len 0 =
        some (⟨w ++ [ctb % 256, len], [], bm⟩, false)) ∧
    (192 ≤ len → len < 8384 →
      write_new_header ⟨w, [], bm⟩ ctb len 0 =
        some (⟨w ++ [ctb % 256, (len - 192) / 256 + 192, (len - 192) % 256],
               [], bm⟩, false)) ∧
    (8384 ≤ len →
      write_new_header ⟨w, [], bm⟩ ctb len 0 =
        some (⟨w ++ [ctb % 256, 255, len >>> 24, (len >>> 16) % 256,
                     (len >>> 8) % 256, len % 256], [], bm⟩, false) ∧
      (len >>> 24) * 16777216 + ((len >>> 16) % 256) * 65536 +
        ((len >>> 8) % 256) * 256 + len % 256 = len) := by
  have hm : len % U32 = len := Nat.mod_eq_of_lt h2
  have hU : U32 = 4294967296 := rfl
  refine ⟨?_, ?_, ?_⟩
  · intro hlt
    simp [write_new_header, hm, iobuf_put, h1.ne', hlt,
          Nat.mod_eq_of_lt (show len < 256 by omega)]
  · intro hge hlt
    have hb : (len - 192) / 256 + 192 < 256 := by omega
    simp [write_new_header, hm, iobuf_put, h1.ne', hlt,
          Nat.not_lt.mpr hge, Nat.mod_eq_of_lt hb]
  · intro hge
    have h24 : len >>> 24 < 256 := by
      rw [Nat.shiftRight_eq_div_pow]; rw [hU] at h2; omega
    constructor
    · simp [write_new_header, hm, iobuf_put, h1.ne',
            Nat.not_lt.mpr hge, Nat.not_lt.mpr (show 192 ≤ len by omega),
            Nat.mod_eq_of_lt h24, Nat.mod_mod_of_dvd]
    · rw [Nat.shiftRight_eq_div_pow, Nat.shiftRight_eq_div_pow,
          Nat.shiftRight_eq_div_pow]
      rw [hU] at h2
      norm_num
      omega

/-- C1 witness: the three cases at len = 100, len = 8383 and len = 8384. -/
theorem c1_new_header_length_encoding_witness :
    write_new_header ⟨[], [], none⟩ 196 100 0 =
      some (⟨[] ++ [196 % 256, 100], [], none⟩, false) ∧
    write_new_header ⟨[], [], none⟩ 196 8383 0 =
      some (⟨[] ++ [196 % 256, (8383 - 192) / 256 + 192, (8383 - 192) % 256],
             [], none⟩, false) ∧
    write_new_header ⟨[], [], none⟩ 196 8384 0 =
      some (⟨[] ++ [196 % 256, 255, 8384 >>> 24, (8384 >>> 16) % 256,
                    (8384 >>> 8) % 256, 8384 % 256], [], none⟩, false) :=
  ⟨(c1_new_header_length_encoding 196 100 [] none (by decide) (by decide)).1
     (by decide),
   (c1_new_header_length_encoding 196 8383 [] none (by decide)
     (by decide)).2.1 (by decide) (by decide),
   ((c1_new_header_length_encoding 196 8384 [] none (by decide)
     (by decide)).2.2 (by decide)).1⟩

/-- Evaluation of the old-format header path: forced width 2 fits. -/
theorem wh2_forced_sel0 (ctb len hdrlen : Nat) (blk : Bool) (w : List Nat)
    (bm : Option Nat) (h64 : ctb &&& 64 = 0) (ha2 : ctb &&& 2 = 0)
    (ha3 : ctb &&& 3 = 0) (h0 : len ≠ 0) (hU : len < U32)
    (hh : hdrlen ≠ 0) (hc : hdrlen = 2 ∧ len < 256) :
    write_header2 ⟨w, [], bm⟩ ctb len hdrlen blk =
      some (⟨w ++ [ctb % 256, len % 256], [], bm⟩, false) := by
  simp [write_header2, Nat.mod_eq_of_lt hU, h64, ha2, ha3, h0, hh, hc,
        iobuf_put_clean]

/-- Evaluation of the old-format header path: forced width 3 fits. -/
theorem wh2_forced_sel1 (ctb len hdrlen : Nat) (blk : Bool) (w : List Nat)
    (bm : Option Nat) (h64 : ctb &&& 64 = 0) (ha2 : (ctb ||| 1) &&& 2 = 0)
    (ha3 : (ctb ||| 1) &&& 3 ≠ 0) (h0 : len ≠ 0) (hU : len < U32)
    (hh : hdrlen ≠ 0) (hn2 : ¬(hdrlen = 2 ∧ len < 256))
    (hc : hdrlen = 3 ∧ len < 65536) :
    write_header2 ⟨w, [], bm⟩ ctb len hdrlen blk =
      some (⟨w ++ [(ctb ||| 1) % 256, (len >>> 8) % 256, len % 256],
             [], bm⟩, false) := by
  simp [write_header2, Nat.mod_eq_of_lt hU, h64, ha2, ha3, h0, hh, hn2, hc,
        iobuf_put_clean]

/-- Evaluation of the old-format header path: forced width falls back to
the 4-byte selector. -/
theorem wh2_forced_sel2 (ctb len hdrlen : Nat) (blk : Bool) (w : List Nat)
    (bm : Option Nat) (h64 : ctb &&& 64 = 0)
    (ha2 : (ctb ||| 2) &&& 2 ≠ 0) (ha3 : (ctb ||| 2) &&& 3 ≠ 0)
    (h0 : len ≠ 0) (hU : len < U32) (hh : hdrlen ≠ 0)
    (hn2 : ¬(hdrlen = 2 ∧ len < 256))
    (hn3 : ¬(hdrlen = 3 ∧ len < 65536)) :
    write_header2 ⟨w, [], bm⟩ ctb len hdrlen blk =
      some (⟨w ++ [(ctb ||| 2) % 256, (len >>> 24) % 256,
                   (len >>> 16) % 256, (len >>> 8) % 256, len % 256],
             [], bm⟩, false) := by
  simp [write_header2, Nat.mod_eq_of_lt hU, h64, ha2, ha3, h0, hh, hn2, hn3,
        iobuf_put_clean]

/-- Evaluation of the old-format header path, no forced width, len < 256. -/
theorem wh2_plain_sel0 (ctb len : Nat) (blk : Bool) (w : List Nat)
    (bm : Option Nat) (h64 : ctb &&& 64 = 0) (ha2 : ctb &&& 2 = 0)
    (ha3 : ctb &&& 3 = 0) (h0 : len ≠ 0) (hU : len < U32)
    (hlt : len < 256) :
    write_header2 ⟨w, [], bm⟩ ctb len 0 blk =
      some (⟨w ++ [ctb % 256, len % 256], [], bm⟩, false) := by
  simp [write_header2, Nat.mod_eq_of_lt hU, h64, ha2, ha3, h0, hlt,
        iobuf_put_clean]

/-- Evaluation of the old-format header path, no forced width,
256 <= len < 65536. -/
theorem wh2_plain_sel1 (ctb len : Nat) (blk : Bool) (w : List Nat)
    (bm : Option Nat) (h64 : ctb &&& 64 = 0) (ha2 : (ctb ||| 1) &&& 2 = 0)
    (ha3 : (ctb ||| 1) &&& 3 ≠ 0) (h0 : len ≠ 0) (hU : len < U32)
    (hge : 256 ≤ len) (hlt : len < 65536) :
    write_header2 ⟨w, [], bm⟩ ctb len 0 blk =
      some (⟨w ++ [(ctb ||| 1) % 256, (len >>> 8) % 256, len % 256],
             [], bm⟩, false) := by
  simp [write_header2, Nat.mod_eq_of_lt hU, h64, ha2, ha3, h0, hlt,
        Nat.not_lt.mpr hge, iobuf_put_clean]

/-- Evaluation of the old-format header path, no forced width,
len >= 65536. -/
theorem wh2_plain_sel2 (ctb len : Nat) (blk : Bool) (w : List Nat)
    (bm : Option Nat) (h64 : ctb &&& 64 = 0)
    (ha2 : (ctb ||| 2) &&& 2 ≠ 0) (ha3 : (ctb ||| 2) &&& 3 ≠ 0)
    (h0 : len ≠ 0) (hU : len < U32) (hge : 65536 ≤ len) :
    write_header2 ⟨w, [], bm⟩ ctb len 0 blk =
      some (⟨w ++ [(ctb ||| 2) % 256, (len >>> 24) % 256,
                   (len >>> 16) % 256, (len >>> 8) % 256, len % 256],
             [], bm⟩, false) := by
  have hge2 : ¬ len < 256 := by omega
  simp [write_header2, Nat.mod_eq_of_lt hU, h64, ha2, ha3, h0, hge2,
        Nat.not_lt.mpr hge, iobuf_put_clean]

/-- C2: with a nonzero forced header width, the old-format header writer
picks a 2-bit length-type selector that can represent len: selector 0
only when len < 256, selector 1 only when len < 65536, a wider selector
otherwise, and the big-endian length bytes it writes decode back to len. -/
theorem c2_write_header2_forced_no_truncation (t len hdrlen : Nat)
    (blk : Bool) (w : List Nat) (bm : Option Nat)
    (h1 : 0 < len) (h2 : len < U32) (hh : 0 < hdrlen) :
    ∃ sel lenbytes,
      write_header2 ⟨w, [], bm⟩ (oldTagByte t) len hdrlen blk =
        some (⟨w ++ ((oldTagByte t ||| sel) :: lenbytes), [], bm⟩, false) ∧
      sel < 4 ∧
      (sel = 0 → lenbytes.length = 1 ∧ len < 256) ∧
      (sel = 1 → lenbytes.length = 2 ∧ len < 65536) ∧
      (sel = 2 → lenbytes.length = 4) ∧
      beNat lenbytes = len := by
  have hand : t &&& 15 ≤ 15 := Nat.and_le_right
  have hbits : oldTagByte t &&& 64 = 0 ∧ oldTagByte t &&& 2 = 0 ∧
      oldTagByte t &&& 3 = 0 ∧ (oldTagByte t ||| 1) &&& 2 = 0 ∧
      (oldTagByte t ||| 1) &&& 3 ≠ 0 ∧ (oldTagByte t ||| 2) &&& 2 ≠ 0 ∧
      (oldTagByte t ||| 2) &&& 3 ≠ 0 ∧ oldTagByte t % 256 = oldTagByte t ∧
      (oldTagByte t ||| 1) % 256 = oldTagByte t ||| 1 ∧
      (oldTagByte t ||| 2) % 256 = oldTagByte t ||| 2 ∧
      oldTagByte t ||| 0 = oldTagByte t := by
    unfold oldTagByte
    interval_cases hs : (t &&& 15) <;> decide
  obtain ⟨h64, ha2, ha3, hb2, hb3, hc2b, hc3b, hm0, hm1, hm2, hor0⟩ := hbits
  by_cases hf2 : hdrlen = 2 ∧ len < 256
  · refine ⟨0, [len % 256], ?_, by decide, fun _ => ⟨rfl, hf2.2⟩,
            fun h => absurd h (by decide), fun h => absurd h (by decide),
            ?_⟩
    · rw [wh2_forced_sel0 _ _ _ _ _ _ h64 ha2 ha3 h1.ne' h2 hh.ne' hf2,
          hor0, hm0]
    · simp only [beNat, List.foldl]; omega
  · by_cases hf3 : hdrlen = 3 ∧ len < 65536
    · refine ⟨1, [(len >>> 8) % 256, len % 256], ?_,
              by decide, fun h => absurd h (by decide),
              fun _ => ⟨rfl, hf3.2⟩, fun h => absurd h (by decide), ?_⟩
      · rw [wh2_forced_sel1 _ _ _ _ _ _ h64 hb2 hb3 h1.ne' h2 hh.ne' hf2
            hf3, hm1]
      · simp only [beNat, List.foldl]; omega
    · refine ⟨2, [(len >>> 24) % 256, (len >>> 16) % 256,
                  (len >>> 8) % 256, len % 256], ?_,
              by decide, fun h => absurd h (by decide),
              fun h => absurd h (by decide), fun _ => rfl, ?_⟩
      · rw [wh2_forced_sel2 _ _ _ _ _ _ h64 hc2b hc3b h1.ne' h2 hh.ne' hf2
            hf3, hm2]
      · have h2' : len < 4294967296 := h2
        simp only [beNat, List.foldl]; omega

/-- C2 witness: pkttype 6, len 300, forced width 2 cannot hold 300, so a
wider selector is used; instantiates the theorem at that input. -/
theorem c2_write_header2_forced_no_truncation_witness :
    ∃ sel lenbytes,
      write_header2 ⟨[], [], none⟩ (oldTagByte 6) 300 2 true =
        some (⟨[] ++ ((oldTagByte 6 ||| sel) :: lenbytes), [], none⟩,
              false) ∧
      sel < 4 ∧
      (sel = 0 → lenbytes.length = 1 ∧ 300 < 256) ∧
      (sel = 1 → lenbytes.length = 2 ∧ 300 < 65536) ∧
      (sel = 2 → lenbytes.length = 4) ∧
      beNat lenbytes = 300 :=
  c2_write_header2_forced_no_truncation 6 300 2 true [] none (by decide)
    (by decide) (by decide)

/-- C3: calc_header_length returns 1 for a zero length, 2 below 256,
3 below 65536 and 5 otherwise; it is a pure function (no sink is
involved), and the boundary values come out as the spec lists them. -/
theorem c3_calc_header_length :
    (∀ len : Nat, calc_header_length len =
      if len = 0 then 1 else if len < 256 then 2
      else if len < 65536 then 3 else 5) ∧
    calc_header_length 0 = 1 ∧ calc_header_length 255 = 2 ∧
    calc_header_length 256 = 3 ∧ calc_header_length 65535 = 3 ∧
    calc_header_length 65536 = 5 ∧ calc_header_length 4294967295 = 5 :=
  ⟨fun _ => rfl, rfl, rfl, rfl, rfl, rfl, rfl⟩

/-- C4: on a signature with empty hashed and unhashed regions, appending
the creation-time subpacket with a 4-byte body yields a hashed region
with 2-byte prefix 6 = 1(length byte) + 1(type byte) + 4(body), and
find_subpkt then recovers header byte count 2, body byte count 4 and
exactly the 4 body bytes. -/
theorem c4_creation_time_upsert_roundtrip (sig : PktSignature)
    (b0 b1 b2 b3 : Nat)
    (hh : sig.hashed_data = none) (hu : sig.unhashed_data = none) :
    build_sig_subpkt sig SIGSUBPKT_SIG_CREATED [b0, b1, b2, b3] =
      some { sig with hashed_data := some [0, 6, 5, 2, b0, b1, b2, b3] } ∧
    regionLen (some [0, 6, 5, 2, b0, b1, b2, b3]) = 6 ∧
    find_subpkt (some [0, 6, 5, 2, b0, b1, b2, b3]) SIGSUBPKT_SIG_CREATED =
      FindResult.found 2 4 [b0, b1, b2, b3] := by
  refine ⟨?_, rfl, ?_⟩
  · norm_num [build_sig_subpkt, hh, hu, find_subpkt, SIGSUBPKT_SIG_CREATED,
              SIGSUBPKT_PRIV_ADD_SIG, regionLen, Nat.shiftRight_eq_div_pow]
  · norm_num [find_subpkt, fsLoop, fsCheck, SIGSUBPKT_SIG_CREATED]

/-- C4 witness: concrete body bytes 10, 20, 30, 40 on a concrete empty
signature. -/
theorem c4_creation_time_upsert_roundtrip_witness :
    build_sig_subpkt ⟨4, 0, 0, 0, 0, 0, 0, 0, 0, none, none,
        [], [], [], [], []⟩ SIGSUBPKT_SIG_CREATED [10, 20, 30, 40] =
      some { (⟨4, 0, 0, 0, 0, 0, 0, 0, 0, none, none, [], [], [], [], []⟩ :
              PktSignature) with
             hashed_data := some [0, 6, 5, 2, 10, 20, 30, 40] } ∧
    regionLen (some [0, 6, 5, 2, 10, 20, 30, 40]) = 6 ∧
    find_subpkt (some [0, 6, 5, 2, 10, 20, 30, 40]) SIGSUBPKT_SIG_CREATED =
      FindResult.found 2 4 [10, 20, 30, 40] :=
  c4_creation_time_upsert_roundtrip
    ⟨4, 0, 0, 0, 0, 0, 0, 0, 0, none, none, [], [], [], [], []⟩
    10 20 30 40 rfl rfl

/-- C5 counterexample: find_subpkt does not report a parse error on
long-form entry length bytes.  First region: a single entry using the
0xFF 5-byte form (length 4 = type byte 16 plus 3 body bytes) is decoded
and found.  Second region: an entry whose length byte is 192 is decoded
with the 2-byte scaled formula (second byte 2, so n = 194), and because
the C never advances past the second length byte, that byte is also read
as the type: the entry of type 2 is found with header byte count 2 and
193 body bytes.  In both cases the scan decodes the entry instead of
raising the claimed parse error. -/
theorem c5_counterexample_long_form_decoded :
    find_subpkt (some (0 :: 9 :: 255 :: 0 :: 0 :: 0 :: 4 :: 16 ::
        [1, 2, 3])) 16 = FindResult.found 6 3 [1, 2, 3] ∧
    find_subpkt (some (0 :: 9 :: 255 :: 0 :: 0 :: 0 :: 4 :: 16 ::
        [1, 2, 3])) 16 ≠ FindResult.parseError ∧
    find_subpkt (some (0 :: 196 :: 192 :: 2 :: List.replicate 193 0)) 2 =
      FindResult.found 2 193 (List.replicate 193 0) ∧
    find_subpkt (some (0 :: 196 :: 192 :: 2 :: List.replicate 193 0)) 2 ≠
      FindResult.parseError := by
  have h1 : find_subpkt (some (0 :: 9 :: 255 :: 0 :: 0 :: 0 :: 4 :: 16 ::
      [1, 2, 3])) 16 = FindResult.found 6 3 [1, 2, 3] := by
    simp only [find_subpkt]
    rw [fsLoop.eq_def]
    norm_num [fsCheck]
  have h2 : find_subpkt
      (some (0 :: 196 :: 192 :: 2 :: List.replicate 193 0)) 2 =
      FindResult.found 2 193 (List.replicate 193 0) := by
    simp only [find_subpkt]
    rw [fsLoop.eq_def]
    norm_num [fsCheck, Nat.shiftLeft_eq, List.take_replicate]
  exact ⟨h1, by rw [h1]; exact fun hc => FindResult.noConfusion hc,
         h2, by rw [h2]; exact fun hc => FindResult.noConfusion hc⟩

/-- C5 amended: find_subpkt does not treat long-form entry length bytes
as a parse error.  The 0xFF marker is decoded as the 5-byte form (4-byte
big-endian length) with the scan continuing correctly behind it.  A
length byte in 192..254 is decoded with the 2-byte scaled formula, but
the buffer is never advanced past the second length byte, so that byte
is also read as the entry's type byte: a match reports header byte count
2 with the body starting right after it, and a non-match advances n
bytes from there (a one-byte misalignment).  The parse error is reported
only when a decode would run past the declared region bound. -/
theorem c5_find_subpkt_decodes_long_forms :
    (∀ (L b n : Nat) (body : List Nat) (p0 p1 : Nat),
      192 ≤ L → L < 255 → b % 128 = b →
      n = ((L - 192) <<< 8) + b + 192 →
      p0 * 256 + p1 = n + 2 →
      body.length = n - 1 →
      find_subpkt (some (p0 :: p1 :: L :: b :: body)) b =
        FindResult.found 2 (n - 1) body) ∧
    (∀ (a b c d t n : Nat) (body : List Nat) (p0 p1 : Nat),
      t % 128 = t →
      n = ((a * 256 + b) * 256 + c) * 256 + d → 0 < n →
      p0 * 256 + p1 = n + 5 →
      body.length = n - 1 →
      find_subpkt (some (p0 :: p1 :: 255 :: a :: b :: c :: d :: t :: body))
        t = FindResult.found 6 (n - 1) body) := by
  constructor
  · intro L b n body p0 p1 hL1 hL2 hb128 hn hpre hlen
    have hn192 : 192 ≤ n := by omega
    have hb0 : ¬(n + 2 = 0) := by omega
    have h1 : ¬(n + 2 - 1 < 2) := by omega
    have h2 : ¬(n + 2 - 2 < n) := by omega
    have h3 : ¬(n - 1 > n + 2 - 2) := by omega
    have hL3 : ¬(L = 255) := by omega
    have h0 : ¬(n = 0) := by omega
    have hlen' : n - 1 = body.length := hlen.symm
    simp only [find_subpkt, hpre]
    rw [fsLoop.eq_def]
    simp [fsCheck, hL1, hL3, hb128, hb0, h1, h2, h3, h0, ← hn, hlen',
          List.take_length]
    have hx1 : ¬(n + 1 < 2) := by omega
    have hx2 : ¬(n < body.length) := by omega
    simp [hx1, hx2]
  · intro a b c d t n body p0 p1 ht hn h0n hpre hlen
    have hb0 : ¬(n + 5 = 0) := by omega
    have h1 : ¬(n + 5 - 1 < 4) := by omega
    have h2 : ¬(n + 5 - 5 < n) := by omega
    have h3 : ¬(n - 1 > n + 5 - 5) := by omega
    have h0 : ¬(n = 0) := by omega
    have hlen' : n - 1 = body.length := hlen.symm
    simp only [find_subpkt, hpre]
    rw [fsLoop.eq_def]
    simp [fsCheck, ht, hb0, h1, h2, h3, h0, ← hn, hlen', List.take_length]
    have hx1 : ¬(n + 4 < 4) := by omega
    have hx2 : ¬(n < body.length) := by omega
    simp [hx1, hx2]

/-- C5 amended witness: a 5-byte (0xFF marker) entry of length 5 holding
type 2 and body bytes 9, 9, 9, 8 is decoded and found. -/
theorem c5_find_subpkt_decodes_long_forms_witness :
    find_subpkt (some (0 :: 10 :: 255 :: 0 :: 0 :: 0 :: 5 :: 2 ::
        [9, 9, 9, 8])) 2 = FindResult.found 6 (5 - 1) [9, 9, 9, 8] :=
  c5_find_subpkt_decodes_long_forms.2 0 0 0 5 2 5 [9, 9, 9, 8] 0 10
    (by decide) (by decide) (by decide) (by decide) (by decide)

/-- C6 (code bug): appending a subpacket to a region that already holds
one.  First the private add-sig subpacket (type 101) with body 1 2 3 4
goes into the empty hashed region, then the creation-time subpacket
(type 2) with body 9 9 9 9 is appended.  The C code writes the new total
(12) at offset n0 = 6 instead of offset 0: the region keeps its stale
prefix 6, the last two body bytes of the existing entry (3, 4) are
overwritten by the misplaced prefix bytes (0, 12), and the freshly
inserted creation-time subpacket is invisible to find_subpkt. -/
theorem c6_region_length_update_bug :
    ((build_sig_subpkt ⟨4, 0, 0, 0, 0, 0, 0, 0, 0, none, none,
          [], [], [], [], []⟩ SIGSUBPKT_PRIV_ADD_SIG [1, 2, 3, 4]).bind
        (fun s => build_sig_subpkt s SIGSUBPKT_SIG_CREATED
          [9, 9, 9, 9])).map (fun s => s.hashed_data) =
      some (some [0, 6, 5, 101, 1, 2, 0, 12, 5, 2, 9, 9, 9, 9]) ∧
    regionLen (some [0, 6, 5, 101, 1, 2, 0, 12, 5, 2, 9, 9, 9, 9]) = 6 ∧
    find_subpkt (some [0, 6, 5, 101, 1, 2, 0, 12, 5, 2, 9, 9, 9, 9])
        SIGSUBPKT_SIG_CREATED = FindResult.notFound := by
  refine ⟨?_, rfl, ?_⟩
  · norm_num [build_sig_subpkt, find_subpkt, fsLoop, fsCheck,
              SIGSUBPKT_SIG_CREATED, SIGSUBPKT_PRIV_ADD_SIG, regionLen,
              Nat.shiftRight_eq_div_pow]
  · norm_num [find_subpkt, fsLoop, fsCheck, SIGSUBPKT_SIG_CREATED]

/-- C9 counterexample: a sink that fails on the first byte only.  write_16
writes the high byte into the failing sink (the put result is discarded),
the low-byte put succeeds, and the function returns success (false), so a
failure on a byte other than the last is not propagated; the stream even
ends up holding only the low byte. -/
theorem c9_counterexample :
    (write_16 ⟨[], [true], none⟩ 4660).2 = false ∧
    (write_32 ⟨[], [true], none⟩ 305419896).2 = false ∧
    (write_16 ⟨[], [true], none⟩ 4660).1.written = [52] := by decide

/-- C9 amended: write_16 and write_32 write their value big-endian one
byte at a time, but only the final byte's put result is checked: the
functions report failure exactly when the put of the last byte fails
(under the sink's sticky-failure use in practice this still detects a
failed stream, but an isolated earlier failure is not propagated). -/
theorem c9_write16_write32_amended (a : Nat) (w : List Nat)
    (bm : Option Nat) (fs : List Bool) :
    ((write_16 ⟨w, fs, bm⟩ a).2 = fs.getD 1 false) ∧
    ((write_32 ⟨w, fs, bm⟩ a).2 = fs.getD 3 false) ∧
    ((write_16 ⟨w, [], bm⟩ a).1.written = w ++ [a / 256 % 256, a % 256]) ∧
    ((write_32 ⟨w, [], bm⟩ a).1.written =
      w ++ [a % U32 / 16777216, a / 65536 % 256, a / 256 % 256, a % 256]) := by
  have hU : U32 = 4294967296 := rfl
  refine ⟨?_, ?_, ?_, ?_⟩
  · rw [write_16, iobuf_put_snd, iobuf_put_fails]
    rcases fs with _ | ⟨f0, _ | ⟨f1, rest⟩⟩ <;> simp [List.getD]
  · rw [write_32, iobuf_put_snd, iobuf_put_fails, iobuf_put_fails,
        iobuf_put_fails]
    rcases fs with _ | ⟨f0, _ | ⟨f1, _ | ⟨f2, _ | ⟨f3, rest⟩⟩⟩⟩ <;>
      simp [List.getD]
  · simp only [write_16, iobuf_put_clean]
    rw [Nat.shiftRight_eq_div_pow]
    norm_num
    all_goals omega
  · simp only [write_32, iobuf_put_clean]
    rw [Nat.shiftRight_eq_div_pow, Nat.shiftRight_eq_div_pow,
        Nat.shiftRight_eq_div_pow]
    rw [hU]
    norm_num
    all_goals omega

/-- C7: for the fully staged packet types (public cert, secret cert,
public-key session key, signature), an unknown public-key algorithm makes
the encoder return the non-fatal error with the real sink untouched:
no header and no body byte has been written, because writes to the real
sink only happen after the staged buffer is complete. -/
theorem c7_unknown_algo_leaves_sink_untouched (out : Iobuf) (ctb : Nat)
    (pkc : PktPublicCert) (skc : PktSecretCert) (enc : PktPubkeyEnc)
    (sig : PktSignature)
    (h1 : is_ELGAMAL pkc.pubkey_algo = false)
    (h2 : pkc.pubkey_algo ≠ PUBKEY_ALGO_DSA)
    (h3 : is_RSA pkc.pubkey_algo = false)
    (h4 : is_ELGAMAL skc.pubkey_algo = false)
    (h5 : skc.pubkey_algo ≠ PUBKEY_ALGO_DSA)
    (h6 : is_RSA skc.pubkey_algo = false)
    (h7 : is_ELGAMAL enc.pubkey_algo = false)
    (h8 : is_RSA enc.pubkey_algo = false)
    (h9 : is_ELGAMAL sig.pubkey_algo = false)
    (h10 : sig.pubkey_algo ≠ PUBKEY_ALGO_DSA)
    (h11 : is_RSA sig.pubkey_algo = false) :
    do_public_cert out ctb pkc = some (out, Rc.pubkeyAlgo) ∧
    do_secret_cert out ctb skc = some (out, Rc.pubkeyAlgo) ∧
    do_pubkey_enc out ctb enc = some (out, Rc.pubkeyAlgo) ∧
    do_signature out ctb sig = some (out, Rc.pubkeyAlgo) := by
  refine ⟨?_, ?_, ?_, ?_⟩
  · simp only [do_public_cert, h1, h3, if_neg h2, Bool.false_eq_true,
               if_false]
  · simp only [do_secret_cert, h4, h6, if_neg h5, Bool.false_eq_true,
               if_false]
  · simp only [do_pubkey_enc, h7, h8, Bool.false_eq_true, if_false]
  · simp only [do_signature, h9, h11, if_neg h10, Bool.false_eq_true,
               if_false]

/-- C7 witness: algorithm id 99 is unknown to all families; a sink with a
pending byte shows it stays exactly as it was. -/
theorem c7_unknown_algo_leaves_sink_untouched_witness :
    do_public_cert ⟨[7], [], none⟩ 134
        ⟨4, 0, 0, 0, 99, [], [], [], [], [], [], [], [], []⟩ =
      some (⟨[7], [], none⟩, Rc.pubkeyAlgo) ∧
    do_secret_cert ⟨[7], [], none⟩ 150
        ⟨4, 0, 0, 0, 99, false, 0, 0, 0, [], 0, [], 0,
         [], [], [], [], [], [], [], [], [], [], [], [], [], [], []⟩ =
      some (⟨[7], [], none⟩, Rc.pubkeyAlgo) ∧
    do_pubkey_enc ⟨[7], [], none⟩ 132 ⟨0, 0, 99, [], [], []⟩ =
      some (⟨[7], [], none⟩, Rc.pubkeyAlgo) ∧
    do_signature ⟨[7], [], none⟩ 136
        ⟨4, 0, 0, 0, 0, 99, 0, 0, 0, none, none, [], [], [], [], []⟩ =
      some (⟨[7], [], none⟩, Rc.pubkeyAlgo) :=
  c7_unknown_algo_leaves_sink_untouched ⟨[7], [], none⟩ 134
    ⟨4, 0, 0, 0, 99, [], [], [], [], [], [], [], [], []⟩
    ⟨4, 0, 0, 0, 99, false, 0, 0, 0, [], 0, [], 0,
     [], [], [], [], [], [], [], [], [], [], [], [], [], [], []⟩
    ⟨0, 0, 99, [], [], []⟩
    ⟨4, 0, 0, 0, 0, 99, 0, 0, 0, none, none, [], [], [], [], []⟩
    (by decide) (by decide) (by decide) (by decide) (by decide) (by decide)
    (by decide) (by decide) (by decide) (by decide) (by decide)

/-- On a clean sink the old-format header write always succeeds and
leaves the sink clean. -/
theorem wh2_clean_old (ctb len hdrlen : Nat) (blk : Bool) (w : List Nat)
    (bm : Option Nat) (h64 : ctb &&& 64 = 0) :
    ∃ wh bmh, write_header2 ⟨w, [], bm⟩ ctb len hdrlen blk =
      some (⟨wh, [], bmh⟩, false) := by
  have h64' : ¬(ctb &&& 64 ≠ 0) := by simp [h64]
  by_cases hz : len % U32 = 0
  · cases blk <;>
      simp [write_header2, h64', hz, iobuf_put_clean, iobuf_set_block_mode]
  · simp only [write_header2, if_neg h64', iobuf_put_clean,
               Bool.false_eq_true, if_false]
    simp only [hz, if_false]
    repeat' split
    all_goals exact ⟨_, _, rfl⟩

theorem write_32_clean (w : List Nat) (bm : Option Nat) (a : Nat) :
    write_32 ⟨w, [], bm⟩ a =
      (⟨w ++ [((a % U32) >>> 24) % 256, ((a % U32) >>> 16) % 256,
             ((a % U32) >>> 8) % 256, (a % U32) % 256], [], bm⟩,
       false) := by simp [write_32, iobuf_put]

/-- The do_plaintext name loop on a clean sink appends the bytes. -/
theorem foldl_put_clean (l : List Nat) (w : List Nat) (bm : Option Nat) :
    l.foldl (fun o b => (iobuf_put o b).1) ⟨w, [], bm⟩ =
      ⟨w ++ l.map (fun b => b % 256), [], bm⟩ := by
  induction l generalizing w with
  | nil => simp
  | cons x xs ih => simp [iobuf_put_clean, ih]

/-- Fuel-indexed form of the body-loop evaluation on a clean sink. -/
theorem plaintextLoop_clean_fuel (f : Nat) :
    ∀ (src : List Nat) (w : List Nat) (bm : Option Nat) (n : Nat),
      src.length ≤ f → n < U32 →
      plaintextLoop ⟨w, [], bm⟩ src n =
        (⟨w ++ src.map (fun b => b % 256), [], bm⟩,
         (n + src.length) % U32, false) := by
  induction f with
  | zero =>
    intro src w bm n hle hn
    rcases src with _ | ⟨x, xs⟩
    · rw [plaintextLoop.eq_def]
      simp [Nat.mod_eq_of_lt hn]
    · simp at hle
  | succ f ihf =>
    intro src w bm n hle hn
    rcases src with _ | ⟨x, xs⟩
    · rw [plaintextLoop.eq_def]
      simp [Nat.mod_eq_of_lt hn]
    · rw [plaintextLoop.eq_def]
      simp only [iobuf_write_clean, Bool.false_eq_true, if_false]
      have hd : ((x :: xs).drop 1000).length ≤ f := by
        simp only [List.length_drop, List.length_cons] at *
        omega
      have hn' : (n + ((x :: xs).take 1000).length) % U32 < U32 :=
        Nat.mod_lt _ (by norm_num [U32])
      rw [ihf _ _ _ _ hd hn']
      have harr : ((x :: xs).take 1000).length +
          ((x :: xs).drop 1000).length = (x :: xs).length := by
        simp only [List.length_take, List.length_drop, List.length_cons]
        omega
      rw [List.append_assoc, ← List.map_append, List.take_append_drop,
          Nat.mod_add_mod, Nat.add_assoc, harr]

/-- The do_plaintext body loop on a clean sink streams every source byte,
stays clean, and counts the bytes in a u32. -/
theorem plaintextLoop_clean (src : List Nat) (w : List Nat)
    (bm : Option Nat) (n : Nat) (hn : n < U32) :
    plaintextLoop ⟨w, [], bm⟩ src n =
      (⟨w ++ src.map (fun b => b % 256), [], bm⟩,
       (n + src.length) % U32, false) :=
  plaintextLoop_clean_fuel src.length src w bm n (Nat.le_refl _) hn

/-- C8: with every sink write succeeding and an old-format tag byte,
do_plaintext with a declared nonzero length L and a body source yielding
a byte count different from L raises the mismatch diagnostic but still
returns success; with exactly L bytes no diagnostic is raised; and with
declared length 0 the sink ends up switched to end-marker framing
(block mode 0) regardless of the byte count. -/
theorem c8_plaintext_mismatch_nonfatal (ctb : Nat) (pt : PktPlaintext)
    (w : List Nat) (bm : Option Nat) (h64 : ctb &&& 64 = 0) :
    (pt.len ≠ 0 → pt.len < U32 → pt.buf.length < U32 →
      pt.buf.length ≠ pt.len →
      (do_plaintext ⟨w, [], bm⟩ ctb pt).map (fun r => (r.rc, r.mismatch)) =
        some (Rc.ok, true)) ∧
    (pt.len ≠ 0 → pt.len < U32 → pt.buf.length = pt.len →
      (do_plaintext ⟨w, [], bm⟩ ctb pt).map (fun r => (r.rc, r.mismatch)) =
        some (Rc.ok, false)) ∧
    (pt.len = 0 →
      (do_plaintext ⟨w, [], bm⟩ ctb pt).map
          (fun r => (r.out.blockMode, r.rc, r.mismatch)) =
        some (some 0, Rc.ok, false)) := by
  obtain ⟨wh, bmh, hw⟩ :=
    wh2_clean_old ctb (calc_plaintext pt) 0 true w bm h64
  have hU0 : (0:Nat) < U32 := by norm_num [U32]
  refine ⟨?_, ?_, ?_⟩
  · intro hl hlU hbU hne
    have hcnt : pt.buf.length % U32 = pt.buf.length := Nat.mod_eq_of_lt hbU
    simp [do_plaintext, write_header, hw, iobuf_put_clean,
          foldl_put_clean, write_32_clean,
          plaintextLoop_clean _ _ _ _ hU0, hl, hcnt, hne]
  · intro hl hlU heq
    have hcnt : pt.buf.length % U32 = pt.len := by
      rw [heq, Nat.mod_eq_of_lt hlU]
    simp [do_plaintext, write_header, hw, iobuf_put_clean,
          foldl_put_clean, write_32_clean,
          plaintextLoop_clean _ _ _ _ hU0, hl, hcnt]
  · intro hl
    simp [do_plaintext, write_header, hw, iobuf_put_clean,
          foldl_put_clean, write_32_clean,
          plaintextLoop_clean _ _ _ _ hU0, hl, iobuf_set_block_mode]

/-- C8 witness: tag byte 172 (the plaintext tag); a declared length 3
with 2 streamed bytes (diagnostic, success), with 3 streamed bytes
(no diagnostic), and a declared length 0 (end-marker framing). -/
theorem c8_plaintext_mismatch_nonfatal_witness :
    (do_plaintext ⟨[], [], none⟩ 172 ⟨98, 1, [65], 7, 3, [1, 2]⟩).map
        (fun r => (r.rc, r.mismatch)) = some (Rc.ok, true) ∧
    (do_plaintext ⟨[], [], none⟩ 172 ⟨98, 1, [65], 7, 3, [1, 2, 3]⟩).map
        (fun r => (r.rc, r.mismatch)) = some (Rc.ok, false) ∧
    (do_plaintext ⟨[], [], none⟩ 172 ⟨98, 1, [65], 7, 0, [1, 2]⟩).map
        (fun r => (r.out.blockMode, r.rc, r.mismatch)) =
      some (some 0, Rc.ok, false) :=
  ⟨(c8_plaintext_mismatch_nonfatal 172 ⟨98, 1, [65], 7, 3, [1, 2]⟩ []
      none (by decide)).1 (by decide) (by decide) (by decide) (by decide),
   (c8_plaintext_mismatch_nonfatal 172 ⟨98, 1, [65], 7, 3, [1, 2, 3]⟩ []
      none (by decide)).2.1 (by decide) (by decide) (by decide),
   (c8_plaintext_mismatch_nonfatal 172 ⟨98, 1, [65], 7, 0, [1, 2]⟩ []
      none (by decide)).2.2 rfl⟩

/-- On a clean sink with an old-format tag byte and a body source
yielding exactly the declared nonzero length, do_plaintext succeeds with
no diagnostic and emits the header bytes followed by
1 + 1 + namelen + 4 + bodyLength content bytes. -/
theorem do_plaintext_clean_eval (ctb : Nat) (pt : PktPlaintext)
    (wh : List Nat) (bmh : Option Nat)
    (hw : write_header2 ⟨[], [], none⟩ ctb (calc_plaintext pt) 0 true =
      some (⟨wh, [], bmh⟩, false))
    (h0 : pt.len ≠ 0) (hbU : pt.buf.length < U32)
    (hb : pt.buf.length = pt.len) :
    (do_plaintext ⟨[], [], none⟩ ctb pt).map
        (fun r => (r.out.written.length, r.rc)) =
      some (wh.length + (1 + 1 + pt.namelen + 4 + pt.buf.length),
            Rc.ok) := by
  have hU0 : (0:Nat) < U32 := by norm_num [U32]
  have hcc : pt.buf.length % U32 = pt.len := by
    rw [Nat.mod_eq_of_lt hbU, hb]
  simp [do_plaintext, write_header, hw, iobuf_put_clean, foldl_put_clean,
        write_32_clean, plaintextLoop_clean _ _ _ _ hU0, h0, hcc]
  omega

/-- C10: for a literal/plaintext packet with declared nonzero length L,
a body source yielding exactly L bytes, and every sink write succeeding,
the number of bytes build_packet emits to the real sink is exactly
calc_packet_length of the packet, namely
calc_header_length (6 + namelen + L) + 6 + namelen + L. -/
theorem c10_plaintext_build_matches_calc (pt : PktPlaintext) (cfg : Bool)
    (h0 : pt.len ≠ 0) (hb : pt.buf.length = pt.len)
    (hU : 1 + 1 + pt.namelen + 4 + pt.len + 5 < U32) :
    (build_packet cfg ⟨[], [], none⟩ (Packet.plaintext pt)).map
        (fun r => (r.1.written.length, r.2)) =
      (calc_packet_length (Packet.plaintext pt)).map
        (fun n => (n, Rc.ok)) := by
  have hL' : calc_plaintext pt = 1 + 1 + pt.namelen + 4 + pt.len := by
    simp only [calc_plaintext, h0, if_pos, ne_eq, not_false_eq_true,
               if_true]
    exact Nat.mod_eq_of_lt (by omega)
  have hne0 : calc_plaintext pt ≠ 0 := by omega
  have hLU : calc_plaintext pt < U32 := by omega
  have hbU : pt.buf.length < U32 := by omega
  have hctb : ctbFor (pkttypeOf (Packet.plaintext pt)) = 172 := by
    show ctbFor 11 = 172
    decide
  have hbp : build_packet cfg ⟨[], [], none⟩ (Packet.plaintext pt) =
      (do_plaintext ⟨[], [], none⟩ 172 pt).map (fun r => (r.out, r.rc)) := by
    simp only [build_packet, hctb]
  rw [hbp, Option.map_map]
  rw [show ((fun (r : Iobuf × Rc) => (r.1.written.length, r.2)) ∘
        (fun (r : PtResult) => (r.out, r.rc))) =
      (fun (r : PtResult) => (r.out.written.length, r.rc)) from rfl]
  by_cases hc1 : calc_plaintext pt < 256
  · have hw := wh2_plain_sel0 172 (calc_plaintext pt) true [] none
      (by decide) (by decide) (by decide) hne0 hLU hc1
    rw [do_plaintext_clean_eval 172 pt _ _ hw h0 hbU hb]
    have hch : calc_header_length (calc_plaintext pt) = 2 := by
      simp [calc_header_length, hne0, hc1]
    have hr : (calc_plaintext pt + 2) % U32 = calc_plaintext pt + 2 :=
      Nat.mod_eq_of_lt (by omega)
    simp [calc_packet_length, hch, hr]
    omega
  · by_cases hc2 : calc_plaintext pt < 65536
    · have hw := wh2_plain_sel1 172 (calc_plaintext pt) true [] none
        (by decide) (by decide) (by decide) hne0 hLU (by omega) hc2
      rw [do_plaintext_clean_eval 172 pt _ _ hw h0 hbU hb]
      have hch : calc_header_length (calc_plaintext pt) = 3 := by
        simp [calc_header_length, hne0, hc1, hc2]
      have hr : (calc_plaintext pt + 3) % U32 = calc_plaintext pt + 3 :=
        Nat.mod_eq_of_lt (by omega)
      simp [calc_packet_length, hch, hr]
      omega
    · have hw := wh2_plain_sel2 172 (calc_plaintext pt) true [] none
        (by decide) (by decide) (by decide) hne0 hLU (by omega)
      rw [do_plaintext_clean_eval 172 pt _ _ hw h0 hbU hb]
      have hch : calc_header_length (calc_plaintext pt) = 5 := by
        simp [calc_header_length, hne0, hc1, hc2]
      have hr : (calc_plaintext pt + 5) % U32 = calc_plaintext pt + 5 :=
        Nat.mod_eq_of_lt (by omega)
      simp [calc_packet_length, hch, hr]
      omega

/-- C10 witness: mode 98, one name byte, timestamp 7, declared length 3,
three body bytes: 11 content bytes behind a 2-byte header. -/
theorem c10_plaintext_build_matches_calc_witness :
    (build_packet false ⟨[], [], none⟩
        (Packet.plaintext ⟨98, 1, [65], 7, 3, [1, 2, 3]⟩)).map
        (fun r => (r.1.written.length, r.2)) =
      (calc_packet_length
        (Packet.plaintext ⟨98, 1, [65], 7, 3, [1, 2, 3]⟩)).map
        (fun n => (n, Rc.ok)) :=
  c10_plaintext_build_matches_calc ⟨98, 1, [65], 7, 3, [1, 2, 3]⟩ false
    (by decide) (by decide) (by decide)

end BuildPacket
